import Mathlib

/-!
Font enumeration, matching and fallback resolution (FontManagerWindows.cc)

A shallow embedding of `src/FontManagerWindows.cc`.

* Every DirectWrite object is a record of the answers its methods give, so a
  platform state is ordinary data and each function of the source becomes a
  function of that data.
* A C string is an `Option String`: `none` is the NULL pointer, `some ""` the
  empty string.  Encoding conversion (`utf8ToUtf16`, `utf16ToUtf8`) is the identity.
* A function of the source that returns a `long` status and writes an out
  parameter becomes a function into `Outcome`.
* Releasing and deleting objects has no observable effect here and is left out.
-/

namespace FontManager

/-! ## Outcomes and the error macros -/

/-- How a call of a function of the source ends.
* `ok v`: it returned `0`, and `v` is what it left in its out parameter;
* `error c`: it returned the nonzero status `c`;
* `thrown`: it left through `throw "Font loading error"`;
* `undefined`: it dereferenced a NULL pointer (no defined behaviour). -/
inductive Outcome (α : Type) where
  | ok (value : α)
  | error (code : Int)
  | thrown
  | undefined
  deriving DecidableEq, Repr

/-- Sequencing: the continuation runs only after a return of `0`. -/
def Outcome.bind {α β : Type} (r : Outcome α) (k : α → Outcome β) : Outcome β :=
  match r with
  | .ok v => k v
  | .error c => .error c
  | .thrown => .thrown
  | .undefined => .undefined

/-- A Windows status code. -/
abbrev HRESULT := Int

/-- The Windows macro `FAILED(hr)`: the status is negative. -/
def FAILED (hr : HRESULT) : Bool := decide (hr < 0)

/-- The Windows macro `SUCCEEDED(hr)`: the status is not negative. -/
def SUCCEEDED (hr : HRESULT) : Bool := decide (0 ≤ hr)

/-- The macro `HR(hr)`: `if (FAILED(hr)) throw "Font loading error";` followed by the rest. -/
def HR {β : Type} (hr : HRESULT) (rest : Outcome β) : Outcome β :=
  if FAILED hr then .thrown else rest

/-- The macro `RETURN_ERROR_CODE(hr)` on a platform call:
`{ long error = hr; if (FAILED(error)) return error; }` followed by the rest. -/
def RETURN_ERROR_CODE {β : Type} (hr : HRESULT) (rest : Outcome β) : Outcome β :=
  if FAILED hr then .error hr else rest

/-- The macro `RETURN_ERROR_CODE(f(&out, ...))` on a function of this file, followed by the
rest, which receives what `out` holds: `some v` after a return of `0`, `none`
(not written) after a nonzero status that is not a failure. -/
def RETURN_ERROR_CODE_OF {α β : Type} (call : Outcome α) (rest : Option α → Outcome β) :
    Outcome β :=
  match call with
  | .ok v => rest (some v)
  | .error c => if FAILED c then .error c else rest none
  | .thrown => .thrown
  | .undefined => .undefined

/-- Reading through a pointer: NULL has no defined behaviour. -/
def deref {α : Type} : Option α → Outcome α
  | some v => .ok v
  | none => .undefined

/-! ## FontDescriptor and ResultSet -/

/-- Modelled from the spec: the record `FontDescriptor` of `FontDescriptor.h`, a
header that is not among the sources.  The fields are those of spec section 3, in
the order of the eight-argument constructor call at lines 140-149.  The string
fields are C strings that may be NULL, as the source uses them (NULL is passed
at line 283 and tested at lines 231, 234 and 237).  The eight-argument
constructor and the copy constructor copy every field as given. -/
structure FontDescriptor where
  path : Option String
  postscriptName : Option String
  family : Option String
  style : Option String
  weight : Nat
  width : Nat
  italic : Bool
  monospace : Bool
  deriving DecidableEq, Repr

/-- Modelled from the spec: the constructor `FontDescriptor()` of `FontDescriptor.h`
(not among the sources), used at line 447 to build a query in which nothing is
set: every string NULL, weight and width `0`, both flags false. -/
def FontDescriptor.new : FontDescriptor :=
  { path := none, postscriptName := none, family := none, style := none,
    weight := 0, width := 0, italic := false, monospace := false }

/-- The type `ResultSet`: a vector of descriptors. -/
abbrev ResultSet := List FontDescriptor

/-- The C function `strlen` on a string that is not NULL: its length in bytes. -/
def strlen (s : String) : Nat := s.utf8ByteSize

/-! ## resultMatches (lines 230-253) -/

/-- One of the three string tests of `resultMatches`:
`desc->f && strcmp(desc->f, result->f) != 0`.  A NULL `desc->f` short-circuits
to false; otherwise `strcmp` reads `result->f`. -/
def strMismatch (descField resultField : Option String) : Outcome Bool :=
  match descField with
  | none => .ok false
  | some d =>
    match resultField with
    | none => .undefined
    | some r => .ok (d != r)

/-- The function `resultMatches(result, desc)`: the candidate `result` against the query `desc`. -/
def resultMatches (result desc : FontDescriptor) : Outcome Bool :=
  (strMismatch desc.postscriptName result.postscriptName).bind fun m1 =>
  if m1 then .ok false else
  (strMismatch desc.family result.family).bind fun m2 =>
  if m2 then .ok false else
  (strMismatch desc.style result.style).bind fun m3 =>
  if m3 then .ok false else
  if desc.weight != 0 && desc.weight != result.weight then .ok false else
  if desc.width != 0 && desc.width != result.width then .ok false else
  if desc.italic != result.italic then .ok false else
  if desc.monospace != result.monospace then .ok false else
  .ok true

/-! ## The platform: DirectWrite objects as records of their answers

A method with out parameters is a field holding the status and the values
written; when the status is a failure the source never reads those values. -/

/-- The interface `IDWriteLocalizedStrings`: a set of localized strings. -/
structure IDWriteLocalizedStrings where
  /-- The method `FindLocaleName(localeName, &index, &exists)`. -/
  FindLocaleName : String → HRESULT × Nat × Bool
  /-- The method `GetStringLength(index, &len)`. -/
  GetStringLength : Nat → HRESULT × Nat
  /-- The method `GetString(index, str, size)`. -/
  GetString : Nat → Nat → HRESULT × String

/-- The interface `IDWriteLocalFontFileLoader`, for one reference key. -/
structure IDWriteLocalFontFileLoader where
  /-- The method `GetFilePathLengthFromKey(key, keySize, &nameLength)`. -/
  GetFilePathLengthFromKey : HRESULT × Nat
  /-- The method `GetFilePathFromKey(key, keySize, name, size)`. -/
  GetFilePathFromKey : Nat → HRESULT × String

/-- The interface `IDWriteFontFileLoader`. -/
structure IDWriteFontFileLoader where
  /-- The call `QueryInterface(__uuidof(IDWriteLocalFontFileLoader), &fileLoader)`. -/
  QueryInterface : HRESULT × IDWriteLocalFontFileLoader

/-- The interface `IDWriteFontFile`. -/
structure IDWriteFontFile where
  /-- The method `GetLoader(&loader)`. -/
  GetLoader : HRESULT × IDWriteFontFileLoader
  /-- The status of the method `GetReferenceKey(&referenceKey, &referenceKeySize)`. -/
  GetReferenceKey : HRESULT

/-- The interface `IDWriteFontFace`. -/
structure IDWriteFontFace where
  /-- The call `GetFiles(&numFiles, NULL)`. -/
  GetFilesCount : HRESULT × Nat
  /-- The call `GetFiles(&numFiles, &files)`: status, `numFiles` and what `files[0]` is. -/
  GetFiles : HRESULT × Nat × IDWriteFontFile

/-- The values of `DWRITE_INFORMATIONAL_STRING_ID` that the source asks for. -/
inductive DWRITE_INFORMATIONAL_STRING_ID where
  | POSTSCRIPT_NAME
  | WIN32_FAMILY_NAMES
  | WIN32_SUBFAMILY_NAMES
  deriving DecidableEq, Repr

/-- The interface `IDWriteFont`: one face of a family. -/
structure IDWriteFont where
  /-- The method `CreateFontFace(&face)`. -/
  CreateFontFace : HRESULT × IDWriteFontFace
  /-- The method `GetInformationalStrings(string_id, &strings, &exists)`. -/
  GetInformationalStrings :
    DWRITE_INFORMATIONAL_STRING_ID → HRESULT × IDWriteLocalizedStrings × Bool
  /-- The method `GetWeight()`. -/
  GetWeight : Nat
  /-- The method `GetStretch()`. -/
  GetStretch : Nat
  /-- The method `GetStyle()`. -/
  GetStyle : Nat

/-- The interface `IDWriteFontFamily`: entry `j` is the answer of `GetFont(j, &desc)`,
and `GetFontCount()` is the number of entries. -/
structure IDWriteFontFamily where
  GetFont : List (HRESULT × IDWriteFont)

/-- The interface `IDWriteFontCollection`: entry `i` is the answer of
`GetFontFamily(i, &family)`, and `GetFontFamilyCount()` is the number of entries. -/
structure IDWriteFontCollection where
  GetFontFamily : List (HRESULT × IDWriteFontFamily)
  /-- The method `GetFontFromFontFace(fontFace, &font)`. -/
  GetFontFromFontFace : IDWriteFontFace → HRESULT × Option IDWriteFont

/-- The structure `DWRITE_GLYPH_RUN`, of which the source reads `fontFace`. -/
structure DWRITE_GLYPH_RUN where
  fontFace : IDWriteFontFace

/-- The interface `IDWriteTextFormat`: what `CreateTextFormat` was called with. -/
structure IDWriteTextFormat where
  fontFamilyName : String
  fontWeight : Nat
  fontStyle : Nat
  fontStretch : Nat

/-- The interface `IDWriteTextLayout`: the glyph runs that the shaping and
fallback engine draws for the laid out text, in drawing order. -/
structure IDWriteTextLayout where
  glyphRuns : List DWRITE_GLYPH_RUN

/-- The interface `IDWriteFactory`. -/
structure IDWriteFactory where
  /-- The method `GetSystemFontCollection(&collection)`. -/
  GetSystemFontCollection : HRESULT × IDWriteFontCollection
  /-- The status of `CreateTextFormat` for a given format. -/
  CreateTextFormat : IDWriteTextFormat → HRESULT
  /-- The call `CreateTextLayout(str, wcslen(str), format, 100.0, 100.0, &layout)`. -/
  CreateTextLayout : String → Nat → IDWriteTextFormat → HRESULT × IDWriteTextLayout

/-- The platform state that a call of the source runs against. -/
structure Platform where
  /-- The call `GetUserDefaultLocaleName(localeName, LOCALE_NAME_MAX_LENGTH)`:
  the returned length (`0` on failure) and the name. -/
  GetUserDefaultLocaleName : Int × String
  /-- The call `DWriteCreateFactory(DWRITE_FACTORY_TYPE_SHARED, ..., &factory)`. -/
  DWriteCreateFactory : HRESULT × IDWriteFactory

/-- The constant `DWRITE_FONT_STYLE_NORMAL` of `dwrite.h`. -/
def DWRITE_FONT_STYLE_NORMAL : Nat := 0

/-- The constant `DWRITE_FONT_STYLE_ITALIC` of `dwrite.h`. -/
def DWRITE_FONT_STYLE_ITALIC : Nat := 2

/-- The constant `DWRITE_FONT_WEIGHT_REGULAR` of `dwrite.h`. -/
def DWRITE_FONT_WEIGHT_REGULAR : Nat := 400

/-- The constant `DWRITE_FONT_STRETCH_NORMAL` of `dwrite.h`. -/
def DWRITE_FONT_STRETCH_NORMAL : Nat := 5

/-! ## getLocaleIndex and getString (lines 30-92) -/

/-- The function `getLocaleIndex(strings, useLocal)`: the index of the string to use. -/
def getLocaleIndex (sys : Platform) (strings : IDWriteLocalizedStrings) (useLocal : Bool) :
    Outcome Nat :=
  -- unsigned int index = 0; BOOL exists = false;
  let start : Nat × Bool := (0, false)
  let afterLocal : Outcome (Nat × Bool) :=
    if useLocal then
      if sys.GetUserDefaultLocaleName.1 ≠ 0 then
        let r := strings.FindLocaleName sys.GetUserDefaultLocaleName.2
        HR r.1 (.ok r.2)
      else .ok start
    else .ok start
  afterLocal.bind fun st =>
  -- if the above find did not find a match, retry with US English
  let afterEnUs : Outcome (Nat × Bool) :=
    if !st.2 then
      let r := strings.FindLocaleName "en-us"
      HR r.1 (.ok r.2)
    else .ok st
  afterEnUs.bind fun st =>
  .ok (if !st.2 then 0 else st.1)

/-- The function `getString(font, string_id, useLocal)`: a localized string of a font; the
empty string when the font has no string of that kind. -/
def getString (sys : Platform) (font : IDWriteFont)
    (string_id : DWRITE_INFORMATIONAL_STRING_ID) (useLocal : Bool) : Outcome String :=
  let r := font.GetInformationalStrings string_id
  HR r.1 <|
  if r.2.2 then
    let strings := r.2.1
    (getLocaleIndex sys strings useLocal).bind fun index =>
    let l := strings.GetStringLength index
    HR l.1 <|
    let s := strings.GetString index (l.2 + 1)
    HR s.1 <|
    .ok s.2
  else
    -- if (!res) { res = new char[1]; res[0] = 0; }
    .ok ""

/-! ## resultFromFont (lines 94-166) -/

/-- The function `resultFromFont(&res, font)`.  `ok (some d)`: returned `0` after writing the
new descriptor `d` to `*res`; `ok none`: returned `0` without writing `*res`
(no file, or the loader of the first file is not a local one). -/
def resultFromFont (sys : Platform) (font : IDWriteFont) : Outcome (Option FontDescriptor) :=
  let f := font.CreateFontFace
  RETURN_ERROR_CODE f.1 <|
  let face := f.2
  RETURN_ERROR_CODE face.GetFilesCount.1 <|
  let g := face.GetFiles
  RETURN_ERROR_CODE g.1 <|
  let numFiles := g.2.1
  let file0 := g.2.2
  if numFiles > 0 then
    let ld := file0.GetLoader
    RETURN_ERROR_CODE ld.1 <|
    let q := ld.2.QueryInterface
    if SUCCEEDED q.1 then
      let fileLoader := q.2
      RETURN_ERROR_CODE file0.GetReferenceKey <|
      let n := fileLoader.GetFilePathLengthFromKey
      RETURN_ERROR_CODE n.1 <|
      let nm := fileLoader.GetFilePathFromKey (n.2 + 1)
      RETURN_ERROR_CODE nm.1 <|
      let psName := nm.2
      (getString sys font .POSTSCRIPT_NAME true).bind fun postscriptName =>
      (getString sys font .WIN32_FAMILY_NAMES false).bind fun family =>
      (getString sys font .WIN32_SUBFAMILY_NAMES true).bind fun style =>
      let monospace := false
      .ok (some
        { path := some psName
          postscriptName := some postscriptName
          family := some family
          style := some style
          weight := font.GetWeight
          width := font.GetStretch
          italic := font.GetStyle == DWRITE_FONT_STYLE_ITALIC
          monospace := monospace })
    else .ok none
  else .ok none

/-! ## getAvailableFonts (lines 168-228) -/

/-- The state of the two loops: the result set and the set `psNames` of keys
already added. -/
structure EnumState where
  resultSet : ResultSet
  psNames : List String

/-- Lines 205-218, for a `result` pointer that `resultFromFont` may have left NULL. -/
def addResult (result : Option FontDescriptor) (st : EnumState) : Outcome EnumState :=
  -- const char* findKey = result->postscriptName;
  (deref result).bind fun result =>
  let findKey := result.postscriptName
  -- if (strlen(findKey) <= 0) findKey = result->family;
  (deref findKey).bind fun k =>
  let findKey := if strlen k ≤ 0 then result.family else findKey
  -- if (strlen(findKey) > 0)
  (deref findKey).bind fun k =>
  if strlen k > 0 then
    if st.psNames.count k = 0 then
      .ok { resultSet := st.resultSet ++ [result], psNames := k :: st.psNames }
    else .ok st
  else .ok st

/-- The inner loop (lines 199-219) over the answers of `GetFont(j, &desc)`. -/
def fontLoop (sys : Platform) : List (HRESULT × IDWriteFont) → EnumState → Outcome EnumState
  | [], st => .ok st
  | (hr, desc) :: rest, st =>
    -- CONTINUE_ON_HRESULT_ERROR(family->GetFont(j, &desc));
    if FAILED hr then fontLoop sys rest st else
    -- CONTINUE_ON_HRESULT_ERROR(resultFromFont(&result, desc));
    match resultFromFont sys desc with
    | .thrown => .thrown
    | .undefined => .undefined
    | .error c =>
      if FAILED c then fontLoop sys rest st
      else (addResult none st).bind (fontLoop sys rest)
    | .ok result => (addResult result st).bind (fontLoop sys rest)

/-- The outer loop (lines 192-222) over the answers of `GetFontFamily(i, &family)`. -/
def familyLoop (sys : Platform) :
    List (HRESULT × IDWriteFontFamily) → EnumState → Outcome EnumState
  | [], st => .ok st
  | (hr, family) :: rest, st =>
    -- CONTINUE_ON_HRESULT_ERROR(collection->GetFontFamily(i, &family));
    if FAILED hr then familyLoop sys rest st else
    (fontLoop sys family.GetFont st).bind (familyLoop sys rest)

/-- The function `getAvailableFonts(&resultSet)`. -/
def getAvailableFonts (sys : Platform) : Outcome ResultSet :=
  let f := sys.DWriteCreateFactory
  RETURN_ERROR_CODE f.1 <|
  let c := f.2.GetSystemFontCollection
  RETURN_ERROR_CODE c.1 <|
  (familyLoop sys c.2.GetFontFamily { resultSet := [], psNames := [] }).bind fun st =>
  .ok st.resultSet

/-! ## findFonts and findFont (lines 255-314) -/

/-- The loop of `findFonts` (lines 258-267): erase what does not match, keep the rest. -/
def eraseLoop (desc : FontDescriptor) : ResultSet → Outcome ResultSet
  | [] => .ok []
  | it :: rest =>
    (resultMatches it desc).bind fun m =>
    (eraseLoop desc rest).bind fun kept =>
    .ok (if !m then kept else it :: kept)

/-- The function `findFonts(&fonts, desc)`. -/
def findFonts (sys : Platform) (desc : FontDescriptor) : Outcome ResultSet :=
  RETURN_ERROR_CODE_OF (getAvailableFonts sys) fun fonts =>
  (deref fonts).bind fun fonts =>
  eraseLoop desc fonts

/-- The query of the second attempt of `findFont` (lines 282-285):
`new FontDescriptor(NULL, NULL, NULL, NULL, desc->weight, desc->width, desc->italic, false)`. -/
def fallbackQuery (desc : FontDescriptor) : FontDescriptor :=
  { path := none, postscriptName := none, family := none, style := none,
    weight := desc.weight, width := desc.width, italic := desc.italic, monospace := false }

/-- The function `findFont(&foundFont, desc)`; the status `1` is `error 1`. -/
def findFont (sys : Platform) (desc : FontDescriptor) : Outcome FontDescriptor :=
  RETURN_ERROR_CODE_OF (findFonts sys desc) fun fonts =>
  (deref fonts).bind fun fonts =>
  -- if nothing was found, try again with only the font traits, no string names
  let second : Outcome ResultSet :=
    if fonts.length = 0 then
      RETURN_ERROR_CODE_OF (findFonts sys (fallbackQuery desc)) deref
    else .ok fonts
  second.bind fun fonts =>
  -- ok, nothing: just return the first available font
  let third : Outcome ResultSet :=
    if fonts.length = 0 then
      RETURN_ERROR_CODE_OF (getAvailableFonts sys) deref
    else .ok fonts
  third.bind fun fonts =>
  -- hopefully we found something now. copy and return the first result
  match fonts with
  | front :: _ => .ok front
  | [] => .error 1

/-! ## FontFallbackRenderer and substituteFont (lines 316-527) -/

/-- The class `FontFallbackRenderer`: the collection and the font saved by the
last `DrawGlyphRun`. -/
structure FontFallbackRenderer where
  systemFonts : IDWriteFontCollection
  font : Option IDWriteFont

/-- The constructor `FontFallbackRenderer(collection)`: `font = NULL`. -/
def FontFallbackRenderer.new (collection : IDWriteFontCollection) : FontFallbackRenderer :=
  { systemFonts := collection, font := none }

/-- The method `DrawGlyphRun` (lines 339-350):
`return systemFonts->GetFontFromFontFace(glyphRun->fontFace, &font);` -/
def FontFallbackRenderer.DrawGlyphRun (self : FontFallbackRenderer)
    (glyphRun : DWRITE_GLYPH_RUN) : HRESULT × FontFallbackRenderer :=
  let r := self.systemFonts.GetFontFromFontFace glyphRun.fontFace
  (r.1, { self with font := r.2 })

/-- The platform method `IDWriteTextLayout::Draw` on the glyph runs of a layout
(spec section 4.3, step 3): the engine hands each glyph run it draws to the
renderer, in order, and stops with the status of the first callback that fails. -/
def drawGlyphRuns : List DWRITE_GLYPH_RUN → FontFallbackRenderer → HRESULT × FontFallbackRenderer
  | [], renderer => (0, renderer)
  | run :: rest, renderer =>
    let r := renderer.DrawGlyphRun run
    if FAILED r.1 then r else drawGlyphRuns rest r.2

/-- The call `layout->Draw(NULL, renderer, 100.0, 100.0)`. -/
def IDWriteTextLayout.Draw (layout : IDWriteTextLayout) (renderer : FontFallbackRenderer) :
    HRESULT × FontFallbackRenderer :=
  drawGlyphRuns layout.glyphRuns renderer

/-- The C function `wcslen` on the UTF-16 form of a string: its number of code units. -/
def wcslen (s : String) : Nat :=
  (s.toList.map fun c => if c.toNat < 65536 then 1 else 2).sum

/-- The query that `substituteFont` builds at lines 447-448:
`new FontDescriptor()` with `postscriptName` assigned. -/
def nameQuery (postscriptName : Option String) : FontDescriptor :=
  { FontDescriptor.new with postscriptName := postscriptName }

/-- Lines 434-508 of `substituteFont`: everything up to and including the only
place where a descriptor is produced, `resultFromFont(&font, renderer->font)`
at line 507.  The value is what that call wrote to the local variable `font`:
`some d` when it wrote `d`, `none` when the call was not made or wrote nothing. -/
def substituteFontLocal (sys : Platform) (postscriptName : Option String) (string : String) :
    Outcome (Option FontDescriptor) :=
  let f := sys.DWriteCreateFactory
  RETURN_ERROR_CODE f.1 <|
  let factory := f.2
  -- Get the system font collection.
  let c := factory.GetSystemFontCollection
  RETURN_ERROR_CODE c.1 <|
  let collection := c.2
  -- find the font for the given postscript name
  let desc := nameQuery postscriptName
  RETURN_ERROR_CODE_OF (findFont sys desc) fun font =>
  -- create a text format object for this font
  let format : Outcome IDWriteTextFormat :=
    match font with
    | some font =>
      (deref font.family).bind fun familyName =>
      .ok { fontFamilyName := familyName
            fontWeight := font.weight
            fontStyle := if font.italic then DWRITE_FONT_STYLE_ITALIC else DWRITE_FONT_STYLE_NORMAL
            fontStretch := font.width }
    | none =>
      -- let the system decide the default font in case findFont returned nothing
      .ok { fontFamilyName := ""
            fontWeight := DWRITE_FONT_WEIGHT_REGULAR
            fontStyle := DWRITE_FONT_STYLE_NORMAL
            fontStretch := DWRITE_FONT_STRETCH_NORMAL }
  format.bind fun format =>
  RETURN_ERROR_CODE (factory.CreateTextFormat format) <|
  -- create a text layout for the substitution string
  let l := factory.CreateTextLayout string (wcslen string) format
  RETURN_ERROR_CODE l.1 <|
  let layout := l.2
  -- render it using a custom renderer that saves the physical font being used
  let renderer := FontFallbackRenderer.new collection
  let d := layout.Draw renderer
  RETURN_ERROR_CODE d.1 <|
  let renderer := d.2
  -- if we found something, create a result object
  match renderer.font with
  | some rendered =>
    RETURN_ERROR_CODE_OF (resultFromFont sys rendered) fun written => .ok written.join
  | none => .ok none

/-- The function `substituteFont(&res, postscriptName, string)`.  The argument `res` is what
`*res` holds when the function is entered and the value is what `*res` holds when
it returns `0`.  No statement of the function assigns to `*res`: line 507 writes
the descriptor to the local variable `font`, and line 526 returns `0`. -/
def substituteFont (sys : Platform) (res : Option FontDescriptor)
    (postscriptName : Option String) (string : String) : Outcome (Option FontDescriptor) :=
  (substituteFontLocal sys postscriptName string).bind fun _font =>
  .ok res

/-! ## Notions of the specification -/

/-- A string field is empty in the sense of spec section 3 ("any may be empty
meaning unset"): it is NULL or the empty string. -/
def isEmptyField (s : Option String) : Bool :=
  match s with
  | none => true
  | some v => v == ""

/-- The dedup key of spec section 4.1: the postscriptName if it is not empty,
the family otherwise. -/
def dedupKey (d : FontDescriptor) : String :=
  if isEmptyField d.postscriptName then d.family.getD "" else d.postscriptName.getD ""

/-- The fonts that enumeration gets hold of: every family that `GetFontFamily`
delivers, in collection order, and in it every face that `GetFont` delivers,
in family order. -/
def fetchedFonts (collection : IDWriteFontCollection) : List IDWriteFont :=
  (collection.GetFontFamily.filter fun p => !FAILED p.1).flatMap fun p =>
    (p.2.GetFont.filter fun q => !FAILED q.1).map fun q => q.2

/-- The system font collection of a platform. -/
def systemCollection (sys : Platform) : IDWriteFontCollection :=
  sys.DWriteCreateFactory.2.GetSystemFontCollection.2

/-- The descriptor of a face whose extraction succeeded, if it did. -/
def extractedFrom (sys : Platform) (font : IDWriteFont) : Option FontDescriptor :=
  match resultFromFont sys font with
  | .ok (some d) => some d
  | _ => none

/-- The successfully extracted descriptors of the system font collection:
families in collection order, faces in family order. -/
def extractedDescriptors (sys : Platform) : List FontDescriptor :=
  (fetchedFonts (systemCollection sys)).filterMap (extractedFrom sys)

/-- The descriptors of a sequence whose dedup key is not empty and is not the
dedup key of an earlier descriptor, where `earlier` holds the descriptors that
come before the sequence. -/
def firstSeenFrom (earlier : List FontDescriptor) : List FontDescriptor → List FontDescriptor
  | [] => []
  | d :: rest =>
    if dedupKey d ≠ "" ∧ ∀ e ∈ earlier, dedupKey e ≠ dedupKey d then
      d :: firstSeenFrom (earlier ++ [d]) rest
    else firstSeenFrom (earlier ++ [d]) rest

/-- The subsequence of claim C4: the descriptors whose dedup key is not empty
and is not the dedup key of any earlier descriptor of the sequence. -/
def firstSeen (ds : List FontDescriptor) : List FontDescriptor :=
  firstSeenFrom [] ds

/-- The first element of the first set that is not empty. -/
def firstOfTiers : List (List FontDescriptor) → Option FontDescriptor
  | [] => none
  | [] :: tiers => firstOfTiers tiers
  | (d :: _) :: _ => some d

/-- A candidate passes `resultMatches` for a query. -/
def passes (desc : FontDescriptor) (candidate : FontDescriptor) : Bool :=
  decide (resultMatches candidate desc = .ok true)

/-! ## Example platform states -/

/-- A localized string set holding one string, filed under `en-us`. -/
def stringsOf (s : String) : IDWriteLocalizedStrings :=
  { FindLocaleName := fun locale => (0, 0, locale == "en-us")
    GetStringLength := fun _ => (0, s.length)
    GetString := fun _ _ => (0, s) }

/-- A font file with a local loader and the given path. -/
def localFile (path : String) : IDWriteFontFile :=
  { GetLoader := (0, { QueryInterface :=
      (0, { GetFilePathLengthFromKey := (0, path.length)
            GetFilePathFromKey := fun _ => (0, path) }) })
    GetReferenceKey := 0 }

/-- A face backed by one local file. -/
def localFace (path : String) : IDWriteFontFace :=
  { GetFilesCount := (0, 1), GetFiles := (0, 1, localFile path) }

/-- A font for which every platform call succeeds. -/
def sampleFont (path postscriptName family style : String) (weight stretch fontStyle : Nat) :
    IDWriteFont :=
  { CreateFontFace := (0, localFace path)
    GetInformationalStrings := fun id =>
      match id with
      | .POSTSCRIPT_NAME => (0, stringsOf postscriptName, true)
      | .WIN32_FAMILY_NAMES => (0, stringsOf family, true)
      | .WIN32_SUBFAMILY_NAMES => (0, stringsOf style, true)
    GetWeight := weight
    GetStretch := stretch
    GetStyle := fontStyle }

/-- A platform whose collection holds the given families, with a shaping engine
that draws the given glyph runs for every text. -/
def platformOf (families : List (HRESULT × IDWriteFontFamily))
    (fromFace : IDWriteFontFace → HRESULT × Option IDWriteFont)
    (runs : List DWRITE_GLYPH_RUN) : Platform :=
  { GetUserDefaultLocaleName := (6, "en-US")
    DWriteCreateFactory := (0,
      { GetSystemFontCollection := (0, { GetFontFamily := families, GetFontFromFontFace := fromFace })
        CreateTextFormat := fun _ => 0
        CreateTextLayout := fun _ _ _ => (0, { glyphRuns := runs }) }) }

/-- The face Arial Bold. -/
def arialBold : IDWriteFont := sampleFont "C:/Fonts/arialbd.ttf" "Arial-Bold" "Arial" "Bold" 700 5 0

/-- The face Arial Regular. -/
def arial : IDWriteFont := sampleFont "C:/Fonts/arial.ttf" "Arial" "Arial" "Regular" 400 5 0

/-- The face Arial Italic. -/
def arialItalic : IDWriteFont :=
  sampleFont "C:/Fonts/ariali.ttf" "Arial-Italic" "Arial" "Italic" 400 5 2

/-- The face Times Bold. -/
def timesBold : IDWriteFont := sampleFont "C:/Fonts/timesbd.ttf" "Times-Bold" "Times" "Bold" 700 5 0

/-- The system of Example A of the spec: Arial-Bold, Arial, Times-Bold. -/
def systemA : Platform :=
  platformOf [(0, { GetFont := [(0, arialBold), (0, arial)] }), (0, { GetFont := [(0, timesBold)] })]
    (fun _ => (0, some arial)) [{ fontFace := arial.CreateFontFace.2 }]

/-! ## Auxiliary notions for the proofs -/

/-- The three name strings of a descriptor are set (not NULL), as they are in
every descriptor that `resultFromFont` builds. -/
def NamesSet (d : FontDescriptor) : Prop :=
  d.postscriptName ≠ none ∧ d.family ≠ none ∧ d.style ≠ none

/-- Lines 205-218 on a descriptor whose names are set: add it unless its key is
empty or already in `psNames`. -/
def keep (d : FontDescriptor) (st : EnumState) : EnumState :=
  if dedupKey d ≠ "" ∧ dedupKey d ∉ st.psNames then
    { resultSet := st.resultSet ++ [d], psNames := dedupKey d :: st.psNames }
  else st

/-- The two loops of `getAvailableFonts` as one loop over the fetched fonts. -/
def faceLoop (sys : Platform) : List IDWriteFont → EnumState → Outcome EnumState
  | [], st => .ok st
  | desc :: rest, st =>
    match resultFromFont sys desc with
    | .thrown => .thrown
    | .undefined => .undefined
    | .error c =>
      if FAILED c then faceLoop sys rest st
      else (addResult none st).bind (faceLoop sys rest)
    | .ok result => (addResult result st).bind (faceLoop sys rest)

/-- The set `psNames` holds exactly the keys that are not empty of the
descriptors seen so far. -/
def KeysOf (earlier : List FontDescriptor) (st : EnumState) : Prop :=
  ∀ k : String, k ∈ st.psNames ↔ k ≠ "" ∧ ∃ e ∈ earlier, dedupKey e = k

/-- A call that ends by returning `0` or by throwing, never with a status. -/
def ReturnsOrThrows {α : Type} (r : Outcome α) : Prop :=
  (∃ v, r = .ok v) ∨ r = .thrown

/-- What a call of `resultFromFont` can do: fail with a failure status, return
without a descriptor, throw, or return a descriptor that has its path and
names set and `monospace` false. -/
def ExtractionShape (r : Outcome (Option FontDescriptor)) : Prop :=
  (∃ c, FAILED c = true ∧ r = .error c) ∨ r = .ok none ∨ r = .thrown ∨
    ∃ d, r = .ok (some d) ∧ NamesSet d ∧ d.monospace = false ∧ d.path ≠ none

/-- Extraction of a face ends in a way that enumeration survives: a status
(the face is skipped) or a descriptor. -/
def skippedOrExtracted (sys : Platform) (font : IDWriteFont) : Bool :=
  match resultFromFont sys font with
  | .error _ => true
  | .ok (some _) => true
  | _ => false

/-- Extraction of a face throws: one of its localized string lookups failed. -/
def lookupThrows (sys : Platform) (font : IDWriteFont) : Bool :=
  decide (resultFromFont sys font = .thrown)

/-- Extraction of a face returns `0` without a descriptor: the face has no file
or the loader of its first file is not a local one. -/
def noDescriptor (sys : Platform) (font : IDWriteFont) : Bool :=
  decide (resultFromFont sys font = .ok none)

/-- The system font collection has been acquired: creating the factory and
getting the collection both succeeded. -/
def acquired (sys : Platform) : Bool :=
  !FAILED sys.DWriteCreateFactory.1 && !FAILED sys.DWriteCreateFactory.2.GetSystemFontCollection.1

/-! ## More example data -/

/-- The descriptor that extraction builds for `arialBold`. -/
def arialBoldDescriptor : FontDescriptor :=
  { path := some "C:/Fonts/arialbd.ttf", postscriptName := some "Arial-Bold",
    family := some "Arial", style := some "Bold", weight := 700, width := 5,
    italic := false, monospace := false }

/-- The descriptor that extraction builds for `arial`. -/
def arialDescriptor : FontDescriptor :=
  { path := some "C:/Fonts/arial.ttf", postscriptName := some "Arial",
    family := some "Arial", style := some "Regular", weight := 400, width := 5,
    italic := false, monospace := false }

/-- The descriptor that extraction builds for `arialItalic`. -/
def arialItalicDescriptor : FontDescriptor :=
  { path := some "C:/Fonts/ariali.ttf", postscriptName := some "Arial-Italic",
    family := some "Arial", style := some "Italic", weight := 400, width := 5,
    italic := true, monospace := false }

/-- The descriptor that extraction builds for `timesBold`. -/
def timesBoldDescriptor : FontDescriptor :=
  { path := some "C:/Fonts/timesbd.ttf", postscriptName := some "Times-Bold",
    family := some "Times", style := some "Bold", weight := 700, width := 5,
    italic := false, monospace := false }

/-- The fonts that `getAvailableFonts` yields on `systemA`. -/
def fontsA : ResultSet := [arialBoldDescriptor, arialDescriptor, timesBoldDescriptor]

/-- The query of Example A of the spec: weight Bold, italic false, no names. -/
def boldQuery : FontDescriptor := { FontDescriptor.new with weight := 700 }

/-- The query of Example B of the spec: a postscriptName that is not installed
and traits that no installed font has. -/
def strangerQuery : FontDescriptor :=
  { FontDescriptor.new with postscriptName := some "NoSuchFont", weight := 100, italic := true }

/-- A query that asks for a monospace font of weight Bold. -/
def monoQuery : FontDescriptor :=
  { FontDescriptor.new with family := some "Arial", weight := 700, monospace := true }

/-- A second file of Arial Bold: same names as `arialBold`, another path. -/
def arialBoldCopy : IDWriteFont := sampleFont "C:/Fonts/arialbd2.ttf" "Arial-Bold" "Arial" "Bold" 700 5 0

/-- A face with neither a postscript name nor a family name. -/
def nameless : IDWriteFont := sampleFont "C:/Fonts/x.ttf" "" "" "Regular" 400 5 0

/-- A face without postscript name; its key is its family name. -/
def familyOnly : IDWriteFont := sampleFont "C:/Fonts/sym.ttf" "" "Symbol" "Regular" 400 5 0

/-- A system with a nameless face, a duplicated face and a face keyed by family:
Arial-Bold, nameless, Arial-Bold again, Symbol. -/
def systemDup : Platform :=
  platformOf [(0, { GetFont := [(0, arialBold), (0, nameless), (0, arialBoldCopy)] }),
      (0, { GetFont := [(0, familyOnly)] })]
    (fun _ => (0, none)) []

/-- The descriptor that extraction builds for `familyOnly`. -/
def symbolDescriptor : FontDescriptor :=
  { path := some "C:/Fonts/sym.ttf", postscriptName := some "",
    family := some "Symbol", style := some "Regular", weight := 400, width := 5,
    italic := false, monospace := false }

/-- The fonts that `getAvailableFonts` yields on `systemDup`. -/
def fontsDup : ResultSet := [arialBoldDescriptor, symbolDescriptor]

/-- A system with Arial and Arial Italic. -/
def systemItalic : Platform :=
  platformOf [(0, { GetFont := [(0, arial), (0, arialItalic)] })] (fun _ => (0, none)) []

/-- A face whose `GetInformationalStrings` fails: a localized string lookup
that does not succeed. -/
def stringless : IDWriteFont :=
  { arial with GetInformationalStrings := fun _ => (-1, stringsOf "", false) }

/-- A face whose name strings exist, but for which `FindLocaleName` fails. -/
def localeless : IDWriteFont :=
  { arial with GetInformationalStrings := fun _ =>
      (0, { stringsOf "Arial" with FindLocaleName := fun _ => (-1, 0, false) }, true) }

/-- A face whose name strings exist, but for which `GetStringLength` fails. -/
def lengthless : IDWriteFont :=
  { arial with GetInformationalStrings := fun _ =>
      (0, { stringsOf "Arial" with GetStringLength := fun _ => (-1, 0) }, true) }

/-- A face whose name strings exist, but for which `GetString` fails. -/
def textless : IDWriteFont :=
  { arial with GetInformationalStrings := fun _ =>
      (0, { stringsOf "Arial" with GetString := fun _ _ => (-1, "") }, true) }

/-- A system with one family holding Arial Bold, the given face and Times Bold,
in that order. -/
def systemWith (face : IDWriteFont) : Platform :=
  platformOf [(0, { GetFont := [(0, arialBold), (0, face), (0, timesBold)] })]
    (fun _ => (0, none)) []

/-- A face for which `CreateFontFace` fails. -/
def faceless : IDWriteFont :=
  { arial with CreateFontFace := (-2147467259, localFace "") }

/-- A face for which `GetFilePathFromKey` fails. -/
def pathless : IDWriteFont :=
  { arial with CreateFontFace := (0,
      { GetFilesCount := (0, 1)
        GetFiles := (0, 1,
          { GetLoader := (0, { QueryInterface :=
              (0, { GetFilePathLengthFromKey := (0, 3)
                    GetFilePathFromKey := fun _ => (-1, "") }) })
            GetReferenceKey := 0 }) }) }

/-- A system in which a family cannot be fetched, a face cannot be fetched and
two faces fail in extraction, next to Arial Bold and Arial. -/
def systemPatchy : Platform :=
  platformOf [(-1, { GetFont := [(0, timesBold)] }),
      (0, { GetFont := [(-1, timesBold), (0, faceless), (0, arialBold), (0, pathless),
        (0, arial)] })]
    (fun _ => (0, none)) []

/-- A face that has no file: `GetFiles` reports `numFiles == 0`. -/
def fileless : IDWriteFont :=
  { arial with CreateFontFace := (0, { GetFilesCount := (0, 0), GetFiles := (0, 0, localFile "") }) }

/-- A candidate for `resultMatches`: the descriptor of Arial. -/
def candidateArial : FontDescriptor := arialDescriptor

/-- A query whose postscriptName is the empty string (not NULL) and that sets
nothing else. -/
def emptyNameQuery : FontDescriptor := { FontDescriptor.new with postscriptName := some "" }

/-- The matching rule in the words of claim C6: a query string that is empty
(NULL or the empty string) does not constrain the candidate. -/
def matchesAsClaimed (candidate query : FontDescriptor) : Bool :=
  (isEmptyField query.postscriptName || query.postscriptName == candidate.postscriptName) &&
  (isEmptyField query.family || query.family == candidate.family) &&
  (isEmptyField query.style || query.style == candidate.style) &&
  (query.weight == 0 || query.weight == candidate.weight) &&
  (query.width == 0 || query.width == candidate.width) &&
  (query.italic == candidate.italic) &&
  (query.monospace == candidate.monospace)

/-! ## Lemmas -/

theorem strlen_eq_zero_iff (s : String) : strlen s = 0 ↔ s = "" := by
  constructor
  · intro h
    cases s with
    | mk cs =>
      cases cs with
      | nil => rfl
      | cons c cs =>
        have hp := Char.utf8Size_pos c
        simp [strlen, String.utf8ByteSize, String.utf8ByteSize.go] at h
        omega
  · intro h
    subst h
    rfl

theorem strMismatch_cases (d r : Option String) :
    (strMismatch d r = .ok false ∧ (d = none ∨ d = r)) ∨
    (strMismatch d r = .ok true ∧ ¬ (d = none ∨ d = r)) ∨
    (strMismatch d r = .undefined ∧ ¬ (d = none ∨ d = r)) := by
  cases d with
  | none => simp [strMismatch]
  | some a =>
    cases r with
    | none => simp [strMismatch]
    | some b =>
      by_cases h : a = b <;> simp [strMismatch, h]

theorem traits_iff (dw rw dwd rwd : Nat) (di ri dm rm : Bool) :
    ((if (dw != 0 && dw != rw) = true then Outcome.ok false else
      if (dwd != 0 && dwd != rwd) = true then Outcome.ok false else
      if (di != ri) = true then Outcome.ok false else
      if (dm != rm) = true then Outcome.ok false else Outcome.ok true) = Outcome.ok true) ↔
    ((dw = 0 ∨ dw = rw) ∧ (dwd = 0 ∨ dwd = rwd) ∧ di = ri ∧ dm = rm) := by
  by_cases h1 : dw = 0 <;> by_cases h2 : dw = rw <;> by_cases h3 : dwd = 0 <;>
    by_cases h4 : dwd = rwd <;> by_cases h5 : di = ri <;> by_cases h6 : dm = rm <;>
    simp [h1, h2, h3, h4, h5, h6]

theorem resultMatches_ok_true_iff (result desc : FontDescriptor) :
    resultMatches result desc = .ok true ↔
      (desc.postscriptName = none ∨ desc.postscriptName = result.postscriptName) ∧
      (desc.family = none ∨ desc.family = result.family) ∧
      (desc.style = none ∨ desc.style = result.style) ∧
      (desc.weight = 0 ∨ desc.weight = result.weight) ∧
      (desc.width = 0 ∨ desc.width = result.width) ∧
      desc.italic = result.italic ∧
      desc.monospace = result.monospace := by
  unfold resultMatches
  rcases strMismatch_cases desc.postscriptName result.postscriptName with
    ⟨e1, h1⟩ | ⟨e1, h1⟩ | ⟨e1, h1⟩ <;>
  rcases strMismatch_cases desc.family result.family with
    ⟨e2, h2⟩ | ⟨e2, h2⟩ | ⟨e2, h2⟩ <;>
  rcases strMismatch_cases desc.style result.style with
    ⟨e3, h3⟩ | ⟨e3, h3⟩ | ⟨e3, h3⟩ <;>
  simp only [e1, e2, e3, Outcome.bind, h1, h2, h3, true_and, false_and, and_false, iff_false,
    Bool.false_eq_true, if_false, if_true, reduceCtorEq, not_false_eq_true] <;>
  first | exact traits_iff _ _ _ _ _ _ _ _ | simp

theorem bind_ok {α β : Type} (v : α) (k : α → Outcome β) : (Outcome.ok v).bind k = k v := rfl

theorem bind_eq_ok {α β : Type} {r : Outcome α} {k : α → Outcome β} {w : β}
    (h : r.bind k = .ok w) : ∃ v, r = .ok v ∧ k v = .ok w := by
  cases r with
  | ok v => exact ⟨v, rfl, h⟩
  | error c => simp [Outcome.bind] at h
  | thrown => simp [Outcome.bind] at h
  | undefined => simp [Outcome.bind] at h

theorem HR_eq_ok {β : Type} {hr : HRESULT} {rest : Outcome β} {w : β}
    (h : HR hr rest = .ok w) : rest = .ok w := by
  unfold HR at h
  split at h
  · cases h
  · exact h

theorem RETURN_ERROR_CODE_eq_ok {β : Type} {hr : HRESULT} {rest : Outcome β} {w : β}
    (h : RETURN_ERROR_CODE hr rest = .ok w) : FAILED hr = false ∧ rest = .ok w := by
  unfold RETURN_ERROR_CODE at h
  split at h
  · cases h
  · rename_i hf
    exact ⟨by simpa using hf, h⟩

theorem RETURN_ERROR_CODE_eq_error {β : Type} {hr : HRESULT} {rest : Outcome β} {c : Int}
    (h : RETURN_ERROR_CODE hr rest = .error c) : FAILED c = true ∨ rest = .error c := by
  unfold RETURN_ERROR_CODE at h
  split at h
  · rename_i hf
    cases h
    exact Or.inl hf
  · exact Or.inr h

theorem RETURN_ERROR_CODE_eq_undefined {β : Type} {hr : HRESULT} {rest : Outcome β}
    (h : RETURN_ERROR_CODE hr rest = .undefined) : rest = .undefined := by
  unfold RETURN_ERROR_CODE at h
  split at h
  · cases h
  · exact h

theorem returnsOrThrows_ok {α : Type} (v : α) : ReturnsOrThrows (Outcome.ok v) :=
  Or.inl ⟨v, rfl⟩

theorem returnsOrThrows_HR {α : Type} (hr : HRESULT) {rest : Outcome α}
    (h : ReturnsOrThrows rest) : ReturnsOrThrows (HR hr rest) := by
  unfold HR
  split
  · exact Or.inr rfl
  · exact h

theorem returnsOrThrows_bind {α β : Type} {r : Outcome α} {k : α → Outcome β}
    (hr : ReturnsOrThrows r) (hk : ∀ v, ReturnsOrThrows (k v)) : ReturnsOrThrows (r.bind k) := by
  rcases hr with ⟨v, rfl⟩ | rfl
  · exact hk v
  · exact Or.inr rfl

theorem returnsOrThrows_ite {α : Type} (c : Prop) [Decidable c] {a b : Outcome α}
    (ha : ReturnsOrThrows a) (hb : ReturnsOrThrows b) : ReturnsOrThrows (if c then a else b) := by
  split
  · exact ha
  · exact hb

theorem getLocaleIndex_returnsOrThrows (sys : Platform) (strings : IDWriteLocalizedStrings)
    (useLocal : Bool) : ReturnsOrThrows (getLocaleIndex sys strings useLocal) := by
  unfold getLocaleIndex
  refine returnsOrThrows_bind ?_ (fun st => returnsOrThrows_bind ?_ (fun _ => returnsOrThrows_ok _))
  · refine returnsOrThrows_ite _ (returnsOrThrows_ite _ ?_ (returnsOrThrows_ok _))
      (returnsOrThrows_ok _)
    exact returnsOrThrows_HR _ (returnsOrThrows_ok _)
  · exact returnsOrThrows_ite _ (returnsOrThrows_HR _ (returnsOrThrows_ok _))
      (returnsOrThrows_ok _)

theorem getString_returnsOrThrows (sys : Platform) (font : IDWriteFont)
    (id : DWRITE_INFORMATIONAL_STRING_ID) (useLocal : Bool) :
    ReturnsOrThrows (getString sys font id useLocal) := by
  unfold getString
  refine returnsOrThrows_HR _ (returnsOrThrows_ite _ ?_ (returnsOrThrows_ok _))
  refine returnsOrThrows_bind (getLocaleIndex_returnsOrThrows _ _ _) (fun index => ?_)
  exact returnsOrThrows_HR _ (returnsOrThrows_HR _ (returnsOrThrows_ok _))

theorem extractionShape_RETURN_ERROR_CODE (hr : HRESULT)
    {rest : Outcome (Option FontDescriptor)} (h : ExtractionShape rest) :
    ExtractionShape (RETURN_ERROR_CODE hr rest) := by
  unfold RETURN_ERROR_CODE
  split
  · rename_i hf
    exact Or.inl ⟨hr, hf, rfl⟩
  · exact h

theorem resultFromFont_shape (sys : Platform) (font : IDWriteFont) :
    ExtractionShape (resultFromFont sys font) := by
  unfold resultFromFont
  dsimp only
  refine extractionShape_RETURN_ERROR_CODE _ (extractionShape_RETURN_ERROR_CODE _
    (extractionShape_RETURN_ERROR_CODE _ ?_))
  split
  · refine extractionShape_RETURN_ERROR_CODE _ ?_
    split
    · refine extractionShape_RETURN_ERROR_CODE _ (extractionShape_RETURN_ERROR_CODE _
        (extractionShape_RETURN_ERROR_CODE _ ?_))
      rcases getString_returnsOrThrows sys font .POSTSCRIPT_NAME true with ⟨p, hp⟩ | hp
      · rcases getString_returnsOrThrows sys font .WIN32_FAMILY_NAMES false with ⟨f, hf⟩ | hf
        · rcases getString_returnsOrThrows sys font .WIN32_SUBFAMILY_NAMES true with ⟨s, hs⟩ | hs
          · simp only [hp, hf, hs, Outcome.bind]
            exact Or.inr (Or.inr (Or.inr ⟨_, rfl, by simp [NamesSet], rfl, by simp⟩))
          · exact Or.inr (Or.inr (Or.inl (by simp only [hp, hf, hs, Outcome.bind])))
        · exact Or.inr (Or.inr (Or.inl (by simp only [hp, hf, Outcome.bind])))
      · exact Or.inr (Or.inr (Or.inl (by simp only [hp, Outcome.bind])))
    · exact Or.inr (Or.inl rfl)
  · exact Or.inr (Or.inl rfl)

theorem resultFromFont_some {sys : Platform} {font : IDWriteFont} {d : FontDescriptor}
    (h : resultFromFont sys font = .ok (some d)) :
    NamesSet d ∧ d.monospace = false ∧ d.path ≠ none := by
  rcases resultFromFont_shape sys font with ⟨c, _, hc⟩ | hn | ht | ⟨e, he, hw⟩
  · rw [h] at hc; cases hc
  · rw [h] at hn; cases hn
  · rw [h] at ht; cases ht
  · rw [h] at he
    cases he
    exact hw

theorem addResult_none (st : EnumState) : addResult none st = .undefined := rfl

theorem addResult_some {d : FontDescriptor} (hd : NamesSet d) (st : EnumState) :
    addResult (some d) st = .ok (keep d st) := by
  obtain ⟨path, ps, fam, sty, w, wd, it, mono⟩ := d
  obtain ⟨h1, h2, _⟩ := hd
  cases ps with
  | none => exact absurd rfl h1
  | some p =>
    cases fam with
    | none => exact absurd rfl h2
    | some f =>
      by_cases hp : p = ""
      · subst hp
        have hk : dedupKey ⟨path, some "", some f, sty, w, wd, it, mono⟩ = f := by
          simp [dedupKey, isEmptyField]
        by_cases hf : f = ""
        · subst hf
          have h0 : strlen "" = 0 := rfl
          simp [addResult, deref, Outcome.bind, keep, hk, h0]
        · have hlen : 0 < strlen f := by
            have := (strlen_eq_zero_iff f).not.2 hf
            omega
          have h0 : strlen "" = 0 := rfl
          simp only [addResult, deref, Outcome.bind, keep, hk, h0, le_refl, if_true, hlen,
            List.count_eq_zero]
          by_cases hm : f ∈ st.psNames <;> simp [hm, hf]
      · have hk : dedupKey ⟨path, some p, some f, sty, w, wd, it, mono⟩ = p := by
          simp [dedupKey, isEmptyField, hp]
        have hlen : 0 < strlen p := by
          have := (strlen_eq_zero_iff p).not.2 hp
          omega
        have hnle : ¬ strlen p ≤ 0 := by omega
        simp only [addResult, deref, Outcome.bind, keep, hk, hnle, if_false, hlen,
          List.count_eq_zero]
        by_cases hm : p ∈ st.psNames <;> simp [hm, hp]

theorem faceLoop_append (sys : Platform) (a b : List IDWriteFont) (st : EnumState) :
    faceLoop sys (a ++ b) st = (faceLoop sys a st).bind (faceLoop sys b) := by
  induction a generalizing st with
  | nil => rfl
  | cons f rest ih =>
    simp only [List.cons_append, faceLoop]
    cases hr : resultFromFont sys f with
    | thrown => rfl
    | undefined => rfl
    | error c =>
      dsimp only
      split
      · exact ih st
      · rfl
    | ok result =>
      dsimp only
      cases ha : addResult result st with
      | ok st1 => simpa [Outcome.bind] using ih st1
      | error c => rfl
      | thrown => rfl
      | undefined => rfl

theorem fontLoop_eq_faceLoop (sys : Platform) (fs : List (HRESULT × IDWriteFont))
    (st : EnumState) :
    fontLoop sys fs st = faceLoop sys ((fs.filter fun q => !FAILED q.1).map fun q => q.2) st := by
  induction fs generalizing st with
  | nil => rfl
  | cons q rest ih =>
    obtain ⟨hr, desc⟩ := q
    by_cases hf : FAILED hr = true
    · simp [fontLoop, hf, ih]
    · have hf2 : FAILED hr = false := by simpa using hf
      simp only [fontLoop, hf2, List.filter_cons, Bool.not_false, if_true, List.map_cons,
        faceLoop, Bool.false_eq_true, if_false]
      cases hres : resultFromFont sys desc with
      | thrown => rfl
      | undefined => rfl
      | error c =>
        dsimp only
        split
        · exact ih st
        · rfl
      | ok result =>
        dsimp only
        cases ha : addResult result st with
        | ok st1 => simpa [Outcome.bind] using ih st1
        | error c => rfl
        | thrown => rfl
        | undefined => rfl

theorem familyLoop_eq_faceLoop (sys : Platform) (fams : List (HRESULT × IDWriteFontFamily))
    (st : EnumState) :
    familyLoop sys fams st =
      faceLoop sys ((fams.filter fun p => !FAILED p.1).flatMap fun p =>
        (p.2.GetFont.filter fun q => !FAILED q.1).map fun q => q.2) st := by
  induction fams generalizing st with
  | nil => rfl
  | cons p rest ih =>
    obtain ⟨hr, family⟩ := p
    by_cases hf : FAILED hr = true
    · simp [familyLoop, hf, ih]
    · have hf2 : FAILED hr = false := by simpa using hf
      simp only [familyLoop, hf2, List.filter_cons, Bool.not_false, if_true,
        List.flatMap_cons, faceLoop_append, Bool.false_eq_true, if_false, fontLoop_eq_faceLoop]
      congr 1
      funext st1
      exact ih st1

theorem faceLoop_ok (sys : Platform) (fs : List IDWriteFont) (st : EnumState)
    (h : ∀ f ∈ fs, skippedOrExtracted sys f = true) :
    faceLoop sys fs st =
      .ok ((fs.filterMap (extractedFrom sys)).foldl (fun s d => keep d s) st) := by
  induction fs generalizing st with
  | nil => rfl
  | cons f rest ih =>
    have hf := h f (List.mem_cons_self _ _)
    have hrest : ∀ g ∈ rest, skippedOrExtracted sys g = true :=
      fun g hg => h g (List.mem_cons_of_mem _ hg)
    rcases resultFromFont_shape sys f with ⟨c, hc, he⟩ | hn | ht | ⟨d, hd, hw, _⟩
    · simp only [faceLoop, he, hc, if_true, List.filterMap_cons, extractedFrom]
      exact ih st hrest
    · simp [skippedOrExtracted, hn] at hf
    · simp [skippedOrExtracted, ht] at hf
    · simp only [faceLoop, hd, addResult_some hw, Outcome.bind, List.filterMap_cons,
        extractedFrom, List.foldl_cons]
      exact ih _ hrest

theorem faceLoop_ok_inv (sys : Platform) (fs : List IDWriteFont) (st st1 : EnumState)
    (h : faceLoop sys fs st = .ok st1) : ∀ f ∈ fs, skippedOrExtracted sys f = true := by
  induction fs generalizing st with
  | nil => intro f hf; cases hf
  | cons f rest ih =>
    rcases resultFromFont_shape sys f with ⟨c, hc, he⟩ | hn | ht | ⟨d, hd, hw, _⟩
    · simp only [faceLoop, he, hc, if_true] at h
      intro g hg
      rcases List.mem_cons.1 hg with rfl | hg
      · simp [skippedOrExtracted, he]
      · exact ih st h g hg
    · simp [faceLoop, hn, addResult_none, Outcome.bind] at h
    · simp [faceLoop, ht] at h
    · simp only [faceLoop, hd, addResult_some hw, Outcome.bind] at h
      intro g hg
      rcases List.mem_cons.1 hg with rfl | hg
      · simp [skippedOrExtracted, hd]
      · exact ih _ h g hg

theorem faceLoop_thrown (sys : Platform) (fs : List IDWriteFont) (st : EnumState)
    (hno : ∀ f ∈ fs, noDescriptor sys f = false)
    (hth : ∃ f ∈ fs, lookupThrows sys f = true) :
    faceLoop sys fs st = .thrown := by
  induction fs generalizing st with
  | nil =>
    obtain ⟨f, hf, _⟩ := hth
    cases hf
  | cons f rest ih =>
    have hrest : ∀ g ∈ rest, noDescriptor sys g = false :=
      fun g hg => hno g (List.mem_cons_of_mem _ hg)
    have hf := hno f (List.mem_cons_self _ _)
    by_cases ht : resultFromFont sys f = .thrown
    · simp [faceLoop, ht]
    · have hth2 : ∃ g ∈ rest, lookupThrows sys g = true := by
        obtain ⟨g, hg, hgt⟩ := hth
        rcases List.mem_cons.1 hg with rfl | hg
        · simp [lookupThrows, ht] at hgt
        · exact ⟨g, hg, hgt⟩
      rcases resultFromFont_shape sys f with ⟨c, hc, he⟩ | hn | ht2 | ⟨d, hd, hw, _⟩
      · simp only [faceLoop, he, hc, if_true]
        exact ih st hrest hth2
      · simp [noDescriptor, hn] at hf
      · exact absurd ht2 ht
      · simp only [faceLoop, hd, addResult_some hw, Outcome.bind]
        exact ih _ hrest hth2

theorem keysOf_keep {earlier : List FontDescriptor} {st : EnumState} (d : FontDescriptor)
    (h : KeysOf earlier st) : KeysOf (earlier ++ [d]) (keep d st) := by
  intro k
  unfold keep
  split
  · rename_i hc
    simp only [List.mem_cons, h k, List.mem_append, List.not_mem_nil, or_false]
    constructor
    · rintro (rfl | ⟨hk, e, he, rfl⟩)
      · exact ⟨hc.1, d, Or.inr rfl, rfl⟩
      · exact ⟨hk, e, Or.inl he, rfl⟩
    · rintro ⟨hk, e, he | rfl, rfl⟩
      · exact Or.inr ⟨hk, e, he, rfl⟩
      · exact Or.inl rfl
  · rename_i hc
    simp only [h k, List.mem_append, List.mem_cons, List.not_mem_nil, or_false]
    constructor
    · rintro ⟨hk, e, he, rfl⟩
      exact ⟨hk, e, Or.inl he, rfl⟩
    · rintro ⟨hk, e, he | rfl, rfl⟩
      · exact ⟨hk, e, he, rfl⟩
      · by_contra _
        apply hc
        refine ⟨hk, ?_⟩
        intro hm
        exact absurd ((h _).1 hm) (by assumption)

theorem keep_resultSet {earlier : List FontDescriptor} {st : EnumState} (d : FontDescriptor)
    (h : KeysOf earlier st) :
    (keep d st).resultSet = st.resultSet ++
      (if dedupKey d ≠ "" ∧ ∀ e ∈ earlier, dedupKey e ≠ dedupKey d then [d] else []) := by
  have hiff : (dedupKey d ≠ "" ∧ dedupKey d ∉ st.psNames) ↔
      (dedupKey d ≠ "" ∧ ∀ e ∈ earlier, dedupKey e ≠ dedupKey d) := by
    constructor
    · rintro ⟨hk, hn⟩
      refine ⟨hk, fun e he heq => hn ((h _).2 ⟨hk, e, he, heq⟩)⟩
    · rintro ⟨hk, hall⟩
      refine ⟨hk, fun hm => ?_⟩
      obtain ⟨_, e, he, heq⟩ := (h _).1 hm
      exact hall e he heq
  unfold keep
  by_cases hc : dedupKey d ≠ "" ∧ dedupKey d ∉ st.psNames
  · rw [if_pos hc, if_pos (hiff.1 hc)]
  · rw [if_neg hc, if_neg (fun h2 => hc (hiff.2 h2))]
    simp

theorem firstSeenFrom_cons (earlier : List FontDescriptor) (d : FontDescriptor)
    (rest : List FontDescriptor) :
    firstSeenFrom earlier (d :: rest) =
      if dedupKey d ≠ "" ∧ ∀ e ∈ earlier, dedupKey e ≠ dedupKey d then
        d :: firstSeenFrom (earlier ++ [d]) rest
      else firstSeenFrom (earlier ++ [d]) rest := rfl

theorem foldl_keep (ds : List FontDescriptor) (earlier : List FontDescriptor) (st : EnumState)
    (h : KeysOf earlier st) :
    (ds.foldl (fun s d => keep d s) st).resultSet = st.resultSet ++ firstSeenFrom earlier ds := by
  induction ds generalizing earlier st with
  | nil => simp [firstSeenFrom]
  | cons d rest ih =>
    rw [List.foldl_cons, ih (earlier ++ [d]) (keep d st) (keysOf_keep d h), keep_resultSet d h,
      firstSeenFrom_cons]
    split <;> simp

theorem keysOf_init : KeysOf [] { resultSet := [], psNames := [] } := by
  intro k
  simp

theorem firstSeenFrom_sublist (earlier ds : List FontDescriptor) :
    (firstSeenFrom earlier ds).Sublist ds := by
  induction ds generalizing earlier with
  | nil => simp [firstSeenFrom]
  | cons d rest ih =>
    rw [firstSeenFrom_cons]
    split
    · exact (ih _).cons₂ d
    · exact (ih _).cons d

theorem firstSeenFrom_mem {earlier ds : List FontDescriptor} {d : FontDescriptor}
    (h : d ∈ firstSeenFrom earlier ds) :
    dedupKey d ≠ "" ∧ ∀ e ∈ earlier, dedupKey e ≠ dedupKey d := by
  induction ds generalizing earlier with
  | nil => simp [firstSeenFrom] at h
  | cons a rest ih =>
    rw [firstSeenFrom_cons] at h
    split at h
    · rename_i hc
      rcases List.mem_cons.1 h with rfl | h
      · exact hc
      · have := ih h
        exact ⟨this.1, fun e he => this.2 e (List.mem_append_left _ he)⟩
    · have := ih h
      exact ⟨this.1, fun e he => this.2 e (List.mem_append_left _ he)⟩

theorem firstSeenFrom_pairwise (earlier ds : List FontDescriptor) :
    (firstSeenFrom earlier ds).Pairwise (fun a b => dedupKey a ≠ dedupKey b) := by
  induction ds generalizing earlier with
  | nil => simp [firstSeenFrom]
  | cons a rest ih =>
    rw [firstSeenFrom_cons]
    split
    · refine List.Pairwise.cons ?_ (ih _)
      intro b hb
      exact (firstSeenFrom_mem hb).2 a (List.mem_append_right _ (List.mem_singleton.2 rfl))
    · exact ih _

theorem getAvailableFonts_eq_faceLoop (sys : Platform) (h : acquired sys = true) :
    getAvailableFonts sys =
      (faceLoop sys (fetchedFonts (systemCollection sys))
        { resultSet := [], psNames := [] }).bind fun st => .ok st.resultSet := by
  simp only [acquired, Bool.and_eq_true, Bool.not_eq_true'] at h
  simp only [getAvailableFonts, RETURN_ERROR_CODE, h.1, h.2, Bool.false_eq_true, if_false,
    familyLoop_eq_faceLoop, fetchedFonts, systemCollection]

theorem getAvailableFonts_ok_acquired {sys : Platform} {fonts : ResultSet}
    (h : getAvailableFonts sys = .ok fonts) : acquired sys = true := by
  unfold getAvailableFonts at h
  obtain ⟨h1, h⟩ := RETURN_ERROR_CODE_eq_ok h
  obtain ⟨h2, _⟩ := RETURN_ERROR_CODE_eq_ok h
  simp [acquired, h1, h2]

theorem getAvailableFonts_of_handled (sys : Platform) (hacq : acquired sys = true)
    (h : ∀ f ∈ fetchedFonts (systemCollection sys), skippedOrExtracted sys f = true) :
    getAvailableFonts sys = .ok (firstSeen (extractedDescriptors sys)) := by
  rw [getAvailableFonts_eq_faceLoop sys hacq, faceLoop_ok sys _ _ h]
  simp only [Outcome.bind, foldl_keep _ [] _ keysOf_init, List.nil_append]
  rfl

theorem getAvailableFonts_ok_handled {sys : Platform} {fonts : ResultSet}
    (h : getAvailableFonts sys = .ok fonts) :
    ∀ f ∈ fetchedFonts (systemCollection sys), skippedOrExtracted sys f = true := by
  rw [getAvailableFonts_eq_faceLoop sys (getAvailableFonts_ok_acquired h)] at h
  obtain ⟨st, hst, _⟩ := bind_eq_ok h
  exact faceLoop_ok_inv sys _ _ _ hst

theorem getAvailableFonts_ok_eq {sys : Platform} {fonts : ResultSet}
    (h : getAvailableFonts sys = .ok fonts) : fonts = firstSeen (extractedDescriptors sys) := by
  have h2 := getAvailableFonts_of_handled sys (getAvailableFonts_ok_acquired h)
    (getAvailableFonts_ok_handled h)
  rw [h] at h2
  cases h2
  rfl

theorem extractedDescriptors_mem {sys : Platform} {d : FontDescriptor}
    (h : d ∈ extractedDescriptors sys) : NamesSet d ∧ d.monospace = false ∧ d.path ≠ none := by
  unfold extractedDescriptors at h
  obtain ⟨f, _, hf⟩ := List.mem_filterMap.1 h
  unfold extractedFrom at hf
  split at hf
  · rename_i e he
    cases hf
    exact resultFromFont_some he
  · cases hf

theorem getAvailableFonts_mem {sys : Platform} {fonts : ResultSet}
    (h : getAvailableFonts sys = .ok fonts) {d : FontDescriptor} (hd : d ∈ fonts) :
    NamesSet d ∧ d.monospace = false ∧ d.path ≠ none ∧ dedupKey d ≠ "" := by
  rw [getAvailableFonts_ok_eq h] at hd
  have hmem := (firstSeenFrom_sublist [] _).subset hd
  have hk := (firstSeenFrom_mem hd).1
  obtain ⟨h1, h2, h3⟩ := extractedDescriptors_mem hmem
  exact ⟨h1, h2, h3, hk⟩

theorem resultMatches_named {result : FontDescriptor} (hn : NamesSet result)
    (desc : FontDescriptor) : resultMatches result desc = .ok (passes desc result) := by
  have hex : ∃ b, resultMatches result desc = .ok b := by
    obtain ⟨h1, h2, h3⟩ := hn
    unfold resultMatches
    rcases strMismatch_cases desc.postscriptName result.postscriptName with
      ⟨e1, _⟩ | ⟨e1, _⟩ | ⟨e1, c1⟩
    · rcases strMismatch_cases desc.family result.family with ⟨e2, _⟩ | ⟨e2, _⟩ | ⟨e2, c2⟩
      · rcases strMismatch_cases desc.style result.style with ⟨e3, _⟩ | ⟨e3, _⟩ | ⟨e3, c3⟩
        · simp only [e1, e2, e3, Outcome.bind, Bool.false_eq_true, if_false]
          repeat' split
          all_goals exact ⟨_, rfl⟩
        · exact ⟨false, by simp [e1, e2, e3, Outcome.bind]⟩
        · exfalso
          cases hd : desc.style with
          | none => simp [hd] at c3
          | some a =>
            cases hr : result.style with
            | none => exact h3 hr
            | some b => simp [strMismatch, hd, hr] at e3
      · exact ⟨false, by simp [e1, e2, Outcome.bind]⟩
      · exfalso
        cases hd : desc.family with
        | none => simp [hd] at c2
        | some a =>
          cases hr : result.family with
          | none => exact h2 hr
          | some b => simp [strMismatch, hd, hr] at e2
    · exact ⟨false, by simp [e1, Outcome.bind]⟩
    · exfalso
      cases hd : desc.postscriptName with
      | none => simp [hd] at c1
      | some a =>
        cases hr : result.postscriptName with
        | none => exact h1 hr
        | some b => simp [strMismatch, hd, hr] at e1
  obtain ⟨b, hb⟩ := hex
  rw [passes, hb]
  cases b <;> simp

theorem eraseLoop_eq_filter (desc : FontDescriptor) (fonts : ResultSet)
    (h : ∀ d ∈ fonts, NamesSet d) : eraseLoop desc fonts = .ok (fonts.filter (passes desc)) := by
  induction fonts with
  | nil => rfl
  | cons d rest ih =>
    have hd := h d (List.mem_cons_self _ _)
    have hrest := ih (fun e he => h e (List.mem_cons_of_mem _ he))
    simp only [eraseLoop, resultMatches_named hd, hrest, Outcome.bind, List.filter_cons]
    cases passes desc d <;> simp

theorem findFonts_eq_filter {sys : Platform} {fonts : ResultSet}
    (h : getAvailableFonts sys = .ok fonts) (desc : FontDescriptor) :
    findFonts sys desc = .ok (fonts.filter (passes desc)) := by
  simp only [findFonts, h, RETURN_ERROR_CODE_OF, deref, Outcome.bind]
  exact eraseLoop_eq_filter desc fonts (fun d hd => (getAvailableFonts_mem h hd).1)

theorem findFont_eq_tiers {sys : Platform} {fonts : ResultSet}
    (h : getAvailableFonts sys = .ok fonts) (desc : FontDescriptor) :
    findFont sys desc =
      match firstOfTiers
        [fonts.filter (passes desc), fonts.filter (passes (fallbackQuery desc)), fonts] with
      | some d => .ok d
      | none => .error 1 := by
  simp only [findFont, findFonts_eq_filter h, RETURN_ERROR_CODE_OF, deref, Outcome.bind, h]
  cases h1 : fonts.filter (passes desc) with
  | cons a l => simp [firstOfTiers]
  | nil =>
    cases h2 : fonts.filter (passes (fallbackQuery desc)) with
    | cons a l => simp [firstOfTiers]
    | nil =>
      cases fonts with
      | nil => simp [firstOfTiers]
      | cons a l => simp [firstOfTiers]

theorem findFont_of_not_ok {sys : Platform} (h : ∀ fonts, getAvailableFonts sys ≠ .ok fonts)
    (desc desc2 : FontDescriptor) : findFont sys desc = findFont sys desc2 := by
  unfold findFont findFonts
  cases hg : getAvailableFonts sys with
  | ok fonts => exact absurd hg (h fonts)
  | error c =>
    by_cases hc : FAILED c = true <;> simp [RETURN_ERROR_CODE_OF, hc, deref, Outcome.bind]
  | thrown => rfl
  | undefined => rfl

theorem substituteFont_ok_eq {sys : Platform} {res r : Option FontDescriptor}
    {postscriptName : Option String} {string : String}
    (h : substituteFont sys res postscriptName string = .ok r) : r = res := by
  unfold substituteFont at h
  obtain ⟨_, _, hk⟩ := bind_eq_ok h
  cases hk
  rfl

/-- When every callback succeeds, the renderer ends up holding the font of the
last glyph run drawn: each `DrawGlyphRun` overwrites `font`. -/
theorem drawGlyphRuns_saves_last (runs : List DWRITE_GLYPH_RUN) (r : FontFallbackRenderer)
    (last : DWRITE_GLYPH_RUN)
    (h : ∀ g ∈ runs ++ [last], FAILED (r.systemFonts.GetFontFromFontFace g.fontFace).1 = false) :
    (drawGlyphRuns (runs ++ [last]) r).2.font =
      (r.systemFonts.GetFontFromFontFace last.fontFace).2 := by
  induction runs generalizing r with
  | nil =>
    have h1 := h last (by simp)
    simp [drawGlyphRuns, FontFallbackRenderer.DrawGlyphRun, h1]
  | cons g rest ih =>
    have h1 := h g (by simp)
    simp only [List.cons_append, drawGlyphRuns, FontFallbackRenderer.DrawGlyphRun, h1,
      Bool.false_eq_true, if_false]
    exact ih _ (fun g2 hg2 => h g2 (List.mem_cons_of_mem _ hg2))

/-- Where the name lookup of `substituteFont` does work: for a name `p` that is the
postscriptName of an enumerated descriptor that is not italic, `findFont` gives
an enumerated descriptor with postscriptName `p`. -/
theorem findFont_nameQuery_upright (sys : Platform) (fonts : ResultSet) (p : String)
    (d : FontDescriptor) (h : getAvailableFonts sys = .ok fonts) (hd : d ∈ fonts)
    (hp : d.postscriptName = some p) (hi : d.italic = false) :
    ∃ r ∈ fonts, findFont sys (nameQuery (some p)) = .ok r ∧ r.postscriptName = some p := by
  have hmono := (getAvailableFonts_mem h hd).2.1
  have hpass : passes (nameQuery (some p)) d = true := by
    simp only [passes, decide_eq_true_eq]
    rw [resultMatches_ok_true_iff]
    simp [nameQuery, FontDescriptor.new, hp, hi, hmono]
  have hmem : d ∈ fonts.filter (passes (nameQuery (some p))) :=
    List.mem_filter.2 ⟨hd, hpass⟩
  rw [findFont_eq_tiers h]
  cases h1 : fonts.filter (passes (nameQuery (some p))) with
  | nil => rw [h1] at hmem; cases hmem
  | cons a l =>
    have ha := List.mem_filter.1 (h1 ▸ List.mem_cons_self a l)
    refine ⟨a, ha.1, by simp [firstOfTiers], ?_⟩
    have hm := ha.2
    simp only [passes, decide_eq_true_eq] at hm
    rw [resultMatches_ok_true_iff] at hm
    rcases hm.1 with hnone | heq
    · simp [nameQuery] at hnone
    · simpa [nameQuery] using heq.symm

/-- Where the name lookup of `substituteFont` cannot work: for a name `p` that only
italic enumerated descriptors carry, no enumerated descriptor passes the query
built at lines 447-448, so the first attempt of `findFont` finds nothing. -/
theorem findFonts_nameQuery_italic_only (sys : Platform) (fonts : ResultSet) (p : String)
    (h : getAvailableFonts sys = .ok fonts)
    (hit : ∀ d ∈ fonts, d.postscriptName = some p → d.italic = true) :
    findFonts sys (nameQuery (some p)) = .ok [] := by
  rw [findFonts_eq_filter h, List.filter_eq_nil_iff.2]
  intro d hd hpass
  simp only [passes, decide_eq_true_eq] at hpass
  rw [resultMatches_ok_true_iff] at hpass
  have hps : d.postscriptName = some p := by
    rcases hpass.1 with hnone | heq
    · simp [nameQuery] at hnone
    · simpa [nameQuery] using heq.symm
  have hi := hit d hd hps
  have hq : (nameQuery (some p)).italic = d.italic := hpass.2.2.2.2.2.1
  rw [hi] at hq
  simp [nameQuery, FontDescriptor.new] at hq

/-- What `getAvailableFonts` does once the collection has been acquired, when no
fetched face returns from extraction without a descriptor: a family or face
that cannot be fetched and a face whose extraction returns a failure status
are skipped; when extraction of some fetched face throws, the call throws. -/
theorem getAvailableFonts_skips_or_throws (sys : Platform) (hacq : acquired sys = true)
    (hno : ∀ f ∈ fetchedFonts (systemCollection sys), noDescriptor sys f = false) :
    getAvailableFonts sys =
      if (fetchedFonts (systemCollection sys)).any (lookupThrows sys) then .thrown
      else .ok (firstSeen (extractedDescriptors sys)) := by
  split
  · rename_i hany
    rw [getAvailableFonts_eq_faceLoop sys hacq,
      faceLoop_thrown sys _ _ hno (by simpa using hany)]
    rfl
  · rename_i hany
    apply getAvailableFonts_of_handled sys hacq
    intro f hf
    have h1 := hno f hf
    have h2 : lookupThrows sys f = false := by
      simp only [List.any_eq_true, not_exists, not_and, Bool.not_eq_true] at hany
      exact hany f hf
    simp only [noDescriptor, lookupThrows, decide_eq_false_iff_not] at h1 h2
    rcases resultFromFont_shape sys f with ⟨c, _, he⟩ | hn | ht | ⟨d, hd, _⟩
    · simp [skippedOrExtracted, he]
    · exact absurd hn h1
    · exact absurd ht h2
    · simp [skippedOrExtracted, hd]

/-! ## The claims -/

/-- C1: for every query and every enumerated font set, `findFont` returns the first
element of the first set that is not empty among: the enumerated set filtered
by `resultMatches` against the query as given; the enumerated set filtered
against the relaxed query that keeps only weight, width and italic (names and
style unset, monospace false); the unfiltered enumerated set.  When all three
are empty it returns the status `1`. -/
theorem findFont_first_nonempty_tier (sys : Platform) (desc : FontDescriptor)
    (fonts : ResultSet) (h : getAvailableFonts sys = .ok fonts) :
    findFont sys desc =
      match firstOfTiers
        [fonts.filter (fun c => decide (resultMatches c desc = .ok true)),
         fonts.filter (fun c => decide (resultMatches c
            { path := none, postscriptName := none, family := none, style := none,
              weight := desc.weight, width := desc.width, italic := desc.italic,
              monospace := false } = .ok true)),
         fonts] with
      | some d => .ok d
      | none => .error 1 :=
  findFont_eq_tiers h desc

/-- Witness of C1 (Example B of the spec): on Arial-Bold, Arial, Times-Bold the
query for an absent name with traits that nothing has falls through to the
first enumerated font. -/
theorem findFont_first_nonempty_tier_witness :
    getAvailableFonts systemA = .ok fontsA ∧
      findFont systemA strangerQuery = .ok arialBoldDescriptor :=
  ⟨by decide, (findFont_first_nonempty_tier systemA strangerQuery fontsA (by decide)).trans
    (by decide)⟩

/-- C2: for every query, `findFont` returns `0` with a descriptor of the enumerated
set whenever that set is not empty, and it returns the status `1` (NotFound)
exactly when the set is empty. -/
theorem findFont_found_iff_nonempty (sys : Platform) (desc : FontDescriptor)
    (fonts : ResultSet) (h : getAvailableFonts sys = .ok fonts) :
    (fonts ≠ [] → ∃ d ∈ fonts, findFont sys desc = .ok d) ∧
      (findFont sys desc = .error 1 ↔ fonts = []) := by
  rw [findFont_eq_tiers h desc]
  cases h1 : fonts.filter (passes desc) with
  | cons a l =>
    have ha : a ∈ fonts := (List.mem_filter.1 (h1 ▸ List.mem_cons_self a l)).1
    refine ⟨fun _ => ⟨a, ha, by simp [firstOfTiers]⟩, ?_⟩
    simp only [firstOfTiers, reduceCtorEq, false_iff]
    exact List.ne_nil_of_mem ha
  | nil =>
    cases h2 : fonts.filter (passes (fallbackQuery desc)) with
    | cons a l =>
      have ha : a ∈ fonts := (List.mem_filter.1 (h2 ▸ List.mem_cons_self a l)).1
      refine ⟨fun _ => ⟨a, ha, by simp [firstOfTiers]⟩, ?_⟩
      simp only [firstOfTiers, reduceCtorEq, false_iff]
      exact List.ne_nil_of_mem ha
    | nil =>
      cases fonts with
      | nil => simp [firstOfTiers]
      | cons a l => simp [firstOfTiers]

/-- Witness of C2: on Arial-Bold, Arial, Times-Bold a query that matches nothing
still gets a descriptor. -/
theorem findFont_found_iff_nonempty_witness :
    fontsA ≠ [] ∧ ∃ d ∈ fontsA, findFont systemA monoQuery = .ok d :=
  ⟨by decide,
    (findFont_found_iff_nonempty systemA monoQuery fontsA (by decide)).1 (by decide)⟩

/-- C3: any two descriptors at different positions of the result of
`getAvailableFonts` have different dedup keys. -/
theorem getAvailableFonts_keys_distinct (sys : Platform) (fonts : ResultSet)
    (h : getAvailableFonts sys = .ok fonts) (i j : Nat) (hi : i < fonts.length)
    (hj : j < fonts.length) (hij : i ≠ j) : dedupKey fonts[i] ≠ dedupKey fonts[j] := by
  have hp : fonts.Pairwise (fun a b => dedupKey a ≠ dedupKey b) := by
    rw [getAvailableFonts_ok_eq h]
    exact firstSeenFrom_pairwise [] _
  rw [List.pairwise_iff_getElem] at hp
  rcases Nat.lt_or_gt_of_ne hij with hlt | hgt
  · exact hp i j hi hj hlt
  · exact fun heq => hp j i hj hi hgt heq.symm

/-- Witness of C3: on Arial-Bold, a nameless face, Arial-Bold again and Symbol the
two descriptors of the result have different keys. -/
theorem getAvailableFonts_keys_distinct_witness :
    getAvailableFonts systemDup = .ok fontsDup ∧
      dedupKey arialBoldDescriptor ≠ dedupKey symbolDescriptor :=
  ⟨by decide,
    getAvailableFonts_keys_distinct systemDup fontsDup (by decide) 0 1 (by decide) (by decide)
      (by decide)⟩

/-- C4: the result of `getAvailableFonts` is exactly the subsequence, in the same
order, of the successfully extracted descriptors whose dedup key is not empty
and is not the dedup key of an earlier descriptor; no descriptor with empty
postscriptName and empty family is in it. -/
theorem getAvailableFonts_first_seen (sys : Platform) (fonts : ResultSet)
    (h : getAvailableFonts sys = .ok fonts) :
    fonts = firstSeen (extractedDescriptors sys) ∧
      fonts.Sublist (extractedDescriptors sys) ∧
      ∀ d ∈ fonts, ¬ (isEmptyField d.postscriptName = true ∧ isEmptyField d.family = true) := by
  refine ⟨getAvailableFonts_ok_eq h, ?_, ?_⟩
  · rw [getAvailableFonts_ok_eq h]
    exact firstSeenFrom_sublist [] _
  · rintro d hd ⟨h1, h2⟩
    apply (getAvailableFonts_mem h hd).2.2.2
    unfold dedupKey
    rw [if_pos h1]
    cases hf : d.family with
    | none => rfl
    | some v =>
      rw [hf] at h2
      simpa [isEmptyField] using h2

/-- Witness of C4: on Arial-Bold, a nameless face, Arial-Bold again and Symbol the
result is the first Arial-Bold followed by Symbol. -/
theorem getAvailableFonts_first_seen_witness :
    getAvailableFonts systemDup = .ok [arialBoldDescriptor, symbolDescriptor] ∧
      firstSeen (extractedDescriptors systemDup) = [arialBoldDescriptor, symbolDescriptor] :=
  ⟨by decide, (getAvailableFonts_first_seen systemDup fontsDup (by decide)).1.symm⟩

/-- C5: `findFonts` returns exactly the enumerated descriptors for which
`resultMatches` holds, in enumeration order; the result is a subsequence of the
enumerated set, and an empty result is a return of `0`. -/
theorem findFonts_exactly_matches (sys : Platform) (desc : FontDescriptor)
    (fonts : ResultSet) (h : getAvailableFonts sys = .ok fonts) :
    findFonts sys desc = .ok (fonts.filter fun c => decide (resultMatches c desc = .ok true)) ∧
      (fonts.filter fun c => decide (resultMatches c desc = .ok true)).Sublist fonts ∧
      ∀ d, d ∈ (fonts.filter fun c => decide (resultMatches c desc = .ok true)) → d ∈ fonts :=
  ⟨findFonts_eq_filter h desc, List.filter_sublist _, fun _ hd => (List.mem_filter.1 hd).1⟩

/-- Witness of C5 (Example A of the spec): on Arial-Bold, Arial, Times-Bold the query
with weight Bold and italic false gives Arial-Bold, Times-Bold. -/
theorem findFonts_exactly_matches_witness :
    findFonts systemA boldQuery = .ok [arialBoldDescriptor, timesBoldDescriptor] :=
  (findFonts_exactly_matches systemA boldQuery fontsA (by decide)).1.trans (by decide)

/-- C6, as the code has it: `resultMatches` is true exactly when each query string is
NULL or equals the string of the candidate, weight and width are `0` or equal
those of the candidate, and the italic and monospace flags are equal. -/
theorem resultMatches_true_iff (result desc : FontDescriptor) :
    resultMatches result desc = .ok true ↔
      (desc.postscriptName = none ∨ desc.postscriptName = result.postscriptName) ∧
      (desc.family = none ∨ desc.family = result.family) ∧
      (desc.style = none ∨ desc.style = result.style) ∧
      (desc.weight = 0 ∨ desc.weight = result.weight) ∧
      (desc.width = 0 ∨ desc.width = result.width) ∧
      desc.italic = result.italic ∧
      desc.monospace = result.monospace :=
  resultMatches_ok_true_iff result desc

/-- C6 fails as stated: a query whose postscriptName is the empty string does
constrain the candidate.  Against the descriptor of Arial the rule of the claim
holds, and `resultMatches` returns false. -/
theorem resultMatches_empty_string_constrains :
    matchesAsClaimed candidateArial emptyNameQuery = true ∧
      resultMatches candidateArial emptyNameQuery = .ok false := by
  decide

/-- C7: evaluation at the failing input.  On a system whose shaping engine draws the
text with Arial, line 507 of `substituteFont("Arial", "A")` extracts the
descriptor of Arial into the local variable, and the call returns `0` with the
`*res` of the caller still NULL. -/
theorem substituteFont_res_not_written :
    resultFromFont systemA arial = .ok (some arialDescriptor) ∧
      substituteFontLocal systemA (some "Arial") "A" = .ok (some arialDescriptor) ∧
      substituteFont systemA none (some "Arial") "A" = .ok none := by
  decide

/-- C8: evaluation at the failing input.  On a system with Arial and Arial Italic the
name Arial-Italic is the postscriptName of an enumerated descriptor, yet the
query that `substituteFont` builds for it (lines 447-448) matches nothing, and
the descriptor that `findFont` hands back is the one of Arial. -/
theorem findFont_nameQuery_italic_missed :
    getAvailableFonts systemItalic = .ok [arialDescriptor, arialItalicDescriptor] ∧
      arialItalicDescriptor.postscriptName = some "Arial-Italic" ∧
      findFonts systemItalic (nameQuery (some "Arial-Italic")) = .ok [] ∧
      findFont systemItalic (nameQuery (some "Arial-Italic")) = .ok arialDescriptor ∧
      arialDescriptor.postscriptName = some "Arial" := by
  decide

/-- C9: evaluation at the failing inputs.  A family and a face that cannot be
fetched and faces whose extraction returns a failure status are skipped
(`systemPatchy`).  But between Arial Bold and Times Bold, one face whose
localized string lookup fails (in `GetInformationalStrings`, `FindLocaleName`,
`GetStringLength` or `GetString`) makes the whole call throw, and one face
without a file makes line 205 read through the NULL `result`: in neither case
is the face skipped and the other two descriptors returned. -/
theorem getAvailableFonts_fails_on_one_face :
    getAvailableFonts systemPatchy = .ok [arialBoldDescriptor, arialDescriptor] ∧
      getAvailableFonts (systemWith faceless) = .ok [arialBoldDescriptor, timesBoldDescriptor] ∧
      getAvailableFonts (systemWith stringless) = .thrown ∧
      getAvailableFonts (systemWith localeless) = .thrown ∧
      getAvailableFonts (systemWith lengthless) = .thrown ∧
      getAvailableFonts (systemWith textless) = .thrown ∧
      resultFromFont (systemWith fileless) fileless = .ok none ∧
      getAvailableFonts (systemWith fileless) = .undefined := by
  decide

/-- C10: every enumerated descriptor has `monospace` false; so for a query with
`monospace` true, `findFonts` returns the empty set and `findFont` gives what it
gives for the relaxed query that keeps only weight, width and italic. -/
theorem findFont_monospace_query (sys : Platform) (desc : FontDescriptor)
    (hm : desc.monospace = true) :
    (∀ fonts, getAvailableFonts sys = .ok fonts →
        (∀ d ∈ fonts, d.monospace = false) ∧ findFonts sys desc = .ok []) ∧
      findFont sys desc = findFont sys
        { path := none, postscriptName := none, family := none, style := none,
          weight := desc.weight, width := desc.width, italic := desc.italic,
          monospace := false } := by
  have hempty : ∀ fonts, getAvailableFonts sys = .ok fonts →
      fonts.filter (passes desc) = [] := by
    intro fonts h
    rw [List.filter_eq_nil_iff]
    intro d hd hpass
    have hmono := (getAvailableFonts_mem h hd).2.1
    simp only [passes, decide_eq_true_eq] at hpass
    rw [resultMatches_ok_true_iff] at hpass
    rw [hm, hmono] at hpass
    exact absurd hpass.2.2.2.2.2.2 (by decide)
  refine ⟨fun fonts h => ⟨fun d hd => (getAvailableFonts_mem h hd).2.1, ?_⟩, ?_⟩
  · rw [findFonts_eq_filter h, hempty fonts h]
  · by_cases hok : ∃ fonts, getAvailableFonts sys = .ok fonts
    · obtain ⟨fonts, h⟩ := hok
      have hidem : fallbackQuery (fallbackQuery desc) = fallbackQuery desc := rfl
      show findFont sys desc = findFont sys (fallbackQuery desc)
      rw [findFont_eq_tiers h, findFont_eq_tiers h, hidem, hempty fonts h]
      cases fonts.filter (passes (fallbackQuery desc)) <;> rfl
    · exact findFont_of_not_ok (fun fonts hf => hok ⟨fonts, hf⟩) _ _

/-- Witness of C10: on Arial-Bold, Arial, Times-Bold the query for a monospace
Arial of weight Bold finds nothing with `findFonts`, and `findFont` gives
Arial-Bold, the first font of weight Bold. -/
theorem findFont_monospace_query_witness :
    findFonts systemA monoQuery = .ok [] ∧ findFont systemA monoQuery = .ok arialBoldDescriptor :=
  ⟨((findFont_monospace_query systemA monoQuery (by decide)).1 fontsA (by decide)).2,
    (findFont_monospace_query systemA monoQuery (by decide)).2.trans (by decide)⟩

end FontManager
